import Mathlib

/-!
Verification of the wobble Model/Component optimization engine
(src/wobble/model.py) against its natural-language specification.

The embedding works over exact rationals. Arrays with per-epoch rows are
functions of two natural indices; external numeric primitives of the
repository that live outside the engine (the differentiable interpolation
kernel, the log-doppler factor, the data binner, the SVD and the
per-block Adam update rules) are universally quantified function
parameters, so every theorem holds for any behaviour of those
collaborators.
-/

/-- Matrices indexed by (epoch, pixel) or similar pairs. -/
abbrev Arr : Type := ℕ → ℕ → ℚ

/-- Signature of a one-dimensional interpolation primitive: it receives a
grid row, a value row, the row length, and a query point. Both the
differentiable kernel used in Component.setup and numpy interp used in
Component.initialize have this shape; they are kept as distinct
parameters below. -/
abbrev Interp1 : Type := (ℕ → ℚ) → (ℕ → ℚ) → ℕ → ℚ → ℚ

/-- State of a Component as it stands after Component.setup: the fields
set in Component.init together with the current values of the variables
created in setup (rvs, template arrays, basis arrays). `Mt` is the
length of the template grid, `N` the epoch count recorded at
construction, `K` the number of variable basis vectors. -/
structure Component where
  name : String
  K : ℕ
  N : ℕ
  Mt : ℕ
  rvs_fixed : Bool
  scale_by_airmass : Bool
  L1_template : ℚ
  L2_template : ℚ
  L1_basis_vectors : ℚ
  L2_basis_vectors : ℚ
  L2_basis_weights : ℚ
  starting_rvs : ℕ → ℚ
  rvs : ℕ → ℚ
  template_xs : ℕ → ℚ
  template_ys : ℕ → ℚ
  basis_vectors : ℕ → ℕ → ℚ
  basis_weights : ℕ → ℕ → ℚ

/-- Regularization part of the objective assembled in Component.setup,
lines 237 to 242 of model.py: an L1 and an L2 template penalty, plus
three basis penalties exactly when K is positive. -/
def Component.nll (c : Component) : ℚ :=
  let r1 := c.L1_template * ∑ j in Finset.range c.Mt, |c.template_ys j|
  let r2 := r1 + c.L2_template * ∑ j in Finset.range c.Mt, (c.template_ys j) ^ 2
  if 0 < c.K then
    r2 + c.L1_basis_vectors *
          ∑ k in Finset.range c.K, ∑ j in Finset.range c.Mt, |c.basis_vectors k j|
       + c.L2_basis_vectors *
          ∑ k in Finset.range c.K, ∑ j in Finset.range c.Mt, (c.basis_vectors k j) ^ 2
       + c.L2_basis_weights *
          ∑ n in Finset.range c.N, ∑ k in Finset.range c.K, (c.basis_weights n k) ^ 2
  else r2

/-- Row-wise application of the interpolation primitive, the shape in
which the external kernel is called on (queries, grids, values) whose
rows are per epoch. -/
def matInterp (interp1 : Interp1) (P : ℕ) (xq grid vals : Arr) : Arr :=
  fun n m => interp1 (grid n) (vals n) P (xq n m)

/-- Doppler-shifted coordinates built in Component.setup, line 245:
each epoch's data coordinates plus the log of the doppler factor of that
epoch's rv. `ld` is log composed with doppler. -/
def Component.shifted_xs (ld : ℚ → ℚ) (dataxs : Arr) (c : Component) : Arr :=
  fun n m => dataxs n m + ld (c.rvs n)

/-- Per-epoch effective template for K positive, line 253 of model.py:
the static template plus the matrix product of basis weights (N by K)
with basis vectors (K by Mt). -/
def Component.full_template (c : Component) : Arr :=
  fun n j => c.template_ys j + ∑ k in Finset.range c.K, c.basis_weights n k * c.basis_vectors k j

/-- Synthesized spectrum built in Component.setup, lines 244 to 257:
interpolate the (broadcast) template onto the shifted coordinates, using
the effective template when K is positive, and scale each epoch by its
airmass when requested. innerZeros mirrors the broadcasting zeros added
by expand_inner in the source. -/
def Component.synth (interp1 : Interp1) (ld : ℚ → ℚ) (airms : ℕ → ℚ)
    (dataxs : Arr) (c : Component) : Arr :=
  let shifted := Component.shifted_xs ld dataxs c
  let innerZeros : ℕ → ℚ := fun _ => 0
  let expandInner : (ℕ → ℚ) → Arr := fun x n j => x j + innerZeros n
  let base : Arr :=
    if c.K = 0 then
      matInterp interp1 c.Mt shifted (expandInner c.template_xs) (expandInner c.template_ys)
    else
      matInterp interp1 c.Mt shifted (expandInner c.template_xs) (Component.full_template c)
  if c.scale_by_airmass then fun n m => airms n * base n m else base

/-- Total synthesized spectrum accumulated in Model.setup, lines 87 to
90: a zero array to which each component's synth is added in turn. -/
def Model.synth (interp1 : Interp1) (ld : ℚ → ℚ) (airms : ℕ → ℚ)
    (dataxs : Arr) (comps : List Component) : Arr :=
  comps.foldl
    (fun acc c => fun n m => acc n m + Component.synth interp1 ld airms dataxs c n m)
    (fun _ _ => 0)

/-- Total objective assembled in Model.setup, lines 92 to 96: half the
ivar-weighted squared misfit over all N by M data points, to which each
component's regularization nll is added in turn. -/
def Model.nll (interp1 : Interp1) (ld : ℚ → ℚ) (airms : ℕ → ℚ)
    (dataxs ys ivars : Arr) (N M : ℕ) (comps : List Component) : ℚ :=
  let synthT := Model.synth interp1 ld airms dataxs comps
  let base := (1 / 2 : ℚ) * ∑ n in Finset.range N, ∑ m in Finset.range M,
      (ys n m - synthT n m) ^ 2 * ivars n m
  comps.foldl (fun acc c => acc + Component.nll c) base

section Helpers

lemma foldl_add_map (g : Component → ℚ) (b : ℚ) (l : List Component) :
    l.foldl (fun acc c => acc + g c) b = b + (l.map g).sum := by
  induction l generalizing b with
  | nil => simp
  | cons c cs ih => simp [ih, add_assoc]

lemma model_synth_pointwise (interp1 : Interp1) (ld : ℚ → ℚ) (airms : ℕ → ℚ)
    (dataxs : Arr) (comps : List Component) (n m : ℕ) :
    Model.synth interp1 ld airms dataxs comps n m
      = (comps.map (fun c => Component.synth interp1 ld airms dataxs c n m)).sum := by
  suffices h : ∀ (g : Arr),
      (comps.foldl
        (fun acc c => fun n m => acc n m + Component.synth interp1 ld airms dataxs c n m) g) n m
        = g n m + (comps.map (fun c => Component.synth interp1 ld airms dataxs c n m)).sum by
    simpa [Model.synth] using h (fun _ _ => 0)
  induction comps with
  | nil => intro g; simp
  | cons c cs ih => intro g; simp [ih, add_assoc]

lemma sum_map_add (f g : Component → ℚ) (l : List Component) :
    (l.map (fun c => f c + g c)).sum = (l.map f).sum + (l.map g).sum := by
  induction l with
  | nil => simp
  | cons c cs ih => simp [ih]; ring

lemma component_nll_split (c : Component) :
    Component.nll c
      = (c.L1_template * ∑ j in Finset.range c.Mt, |c.template_ys j|
         + c.L2_template * ∑ j in Finset.range c.Mt, (c.template_ys j) ^ 2)
        + (if 0 < c.K then
            c.L1_basis_vectors *
              ∑ k in Finset.range c.K, ∑ j in Finset.range c.Mt, |c.basis_vectors k j|
            + c.L2_basis_vectors *
              ∑ k in Finset.range c.K, ∑ j in Finset.range c.Mt, (c.basis_vectors k j) ^ 2
            + c.L2_basis_weights *
              ∑ n in Finset.range c.N, ∑ k in Finset.range c.K, (c.basis_weights n k) ^ 2
          else 0) := by
  by_cases h : 0 < c.K
  · simp [Component.nll, h]; ring
  · simp [Component.nll, h]

end Helpers

/-- C1: after Model.setup the total objective equals half the sum over
epochs and pixels of ivar times the squared residual of the data against
the sum of all component syntheses, plus every component's template
penalties, plus, for components with positive K, the three basis
penalties. -/
theorem model_nll_closed_form (interp1 : Interp1) (ld : ℚ → ℚ) (airms : ℕ → ℚ)
    (dataxs ys ivars : Arr) (N M : ℕ) (comps : List Component) :
    Model.nll interp1 ld airms dataxs ys ivars N M comps
      = (1 / 2 : ℚ) * (∑ n in Finset.range N, ∑ m in Finset.range M,
          ivars n m * (ys n m
            - (comps.map (fun c => Component.synth interp1 ld airms dataxs c n m)).sum) ^ 2)
        + (comps.map (fun c =>
            c.L1_template * ∑ j in Finset.range c.Mt, |c.template_ys j|
            + c.L2_template * ∑ j in Finset.range c.Mt, (c.template_ys j) ^ 2)).sum
        + (comps.map (fun c =>
            if 0 < c.K then
              c.L1_basis_vectors *
                ∑ k in Finset.range c.K, ∑ j in Finset.range c.Mt, |c.basis_vectors k j|
              + c.L2_basis_vectors *
                ∑ k in Finset.range c.K, ∑ j in Finset.range c.Mt, (c.basis_vectors k j) ^ 2
              + c.L2_basis_weights *
                ∑ n in Finset.range c.N, ∑ k in Finset.range c.K, (c.basis_weights n k) ^ 2
            else 0)).sum := by
  rw [Model.nll, foldl_add_map]
  have hsum : (comps.map Component.nll).sum
      = (comps.map (fun c =>
            c.L1_template * ∑ j in Finset.range c.Mt, |c.template_ys j|
            + c.L2_template * ∑ j in Finset.range c.Mt, (c.template_ys j) ^ 2)).sum
        + (comps.map (fun c =>
            if 0 < c.K then
              c.L1_basis_vectors *
                ∑ k in Finset.range c.K, ∑ j in Finset.range c.Mt, |c.basis_vectors k j|
              + c.L2_basis_vectors *
                ∑ k in Finset.range c.K, ∑ j in Finset.range c.Mt, (c.basis_vectors k j) ^ 2
              + c.L2_basis_weights *
                ∑ n in Finset.range c.N, ∑ k in Finset.range c.K, (c.basis_weights n k) ^ 2
            else 0)).sum := by
    rw [← sum_map_add]
    exact congrArg List.sum (List.map_congr_left (fun c _ => component_nll_split c))
  have hmis : ∀ n m, (ys n m - Model.synth interp1 ld airms dataxs comps n m) ^ 2 * ivars n m
      = ivars n m * (ys n m
          - (comps.map (fun c => Component.synth interp1 ld airms dataxs c n m)).sum) ^ 2 := by
    intro n m
    rw [model_synth_pointwise]
    ring
  simp only [hmis] at *
  rw [hsum]
  ring

/-- C2 (amended): the synthesized spectrum of a component at epoch n and
pixel m is the interpolation of its template (the static one when K is
zero, the one corrected by the basis matrix product when K is positive)
evaluated at the shifted coordinate, multiplied by the epoch's airmass
exactly when scale_by_airmass is set. -/
theorem component_synth_formula (interp1 : Interp1) (ld : ℚ → ℚ) (airms : ℕ → ℚ)
    (dataxs : Arr) (c : Component) (n m : ℕ) :
    Component.synth interp1 ld airms dataxs c n m
      = (if c.scale_by_airmass then airms n else 1) *
        (if c.K = 0 then
          interp1 c.template_xs c.template_ys c.Mt (dataxs n m + ld (c.rvs n))
        else
          interp1 c.template_xs
            (fun j => c.template_ys j
              + ∑ k in Finset.range c.K, c.basis_weights n k * c.basis_vectors k j)
            c.Mt (dataxs n m + ld (c.rvs n))) := by
  have hx : (fun j => c.template_xs j + (0 : ℚ)) = c.template_xs := by
    funext j; ring
  have hy : (fun j => c.template_ys j + (0 : ℚ)) = c.template_ys := by
    funext j; ring
  by_cases hk : c.K = 0 <;> by_cases ha : c.scale_by_airmass <;>
    simp [Component.synth, matInterp, Component.shifted_xs, Component.full_template,
      hk, ha, hx, hy]
  · exact Or.inl rfl
  · rfl

/-- Fixed component instance used to refute the unamended C2: airmass
scaling is on, so synth is twice the interpolated value when the airmass
is 2 and the kernel returns 1 everywhere. -/
def airmassComp : Component :=
  { name := "tel", K := 0, N := 1, Mt := 1, rvs_fixed := true,
    scale_by_airmass := true,
    L1_template := 0, L2_template := 0, L1_basis_vectors := 0,
    L2_basis_vectors := 0, L2_basis_weights := 0,
    starting_rvs := fun _ => 0, rvs := fun _ => 0,
    template_xs := fun _ => 0, template_ys := fun _ => 1,
    basis_vectors := fun _ _ => 0, basis_weights := fun _ _ => 0 }

/-- C2 counterexample: for a component with scale_by_airmass set, synth
at epoch 0 differs from the bare interpolation of (template_xs,
template_ys) at the shifted coordinate, refuting the claim as stated
for every component. -/
theorem component_synth_claim_cex :
    ¬ (Component.synth (fun _ _ _ _ => (1 : ℚ)) (fun _ => 0) (fun _ => 2)
        (fun _ _ => 0) airmassComp 0 0
      = (fun _ _ _ _ => (1 : ℚ)) airmassComp.template_xs airmassComp.template_ys
          airmassComp.Mt ((0 : ℚ) + 0)) := by
  simp [Component.synth, matInterp, airmassComp]

/-!
Construction-stage embedding: Component.init (lines 191 to 220) and the
Model bookkeeping around add_component (lines 26 to 69). The
regularization parameter file branch only overwrites the keyword values
and is external resource handling; the keyword path is embedded.
-/

/-- Keyword arguments of Component.init with their source defaults. -/
structure CompKwargs where
  L1_template : ℚ := 0
  L2_template : ℚ := 0
  L1_basis_vectors : ℚ := 0
  L2_basis_vectors : ℚ := 0
  L2_basis_weights : ℚ := 1
  learning_rate_rvs : ℚ := 10
  learning_rate_template : ℚ := 1 / 100
  learning_rate_basis : ℚ := 1 / 100
  rvs_fixed : Bool := false
  variable_bases : ℕ := 0
  scale_by_airmass : Bool := false
  template_xs : Option (ℕ → ℚ) := none

/-- Fields a Component holds right after Component.init. -/
structure ComponentInit where
  name : String
  r : ℕ
  K : ℕ
  N : ℕ
  rvs_fixed : Bool
  scale_by_airmass : Bool
  learning_rate_rvs : ℚ
  learning_rate_template : ℚ
  learning_rate_basis : ℚ
  L1_template : ℚ
  L2_template : ℚ
  L1_basis_vectors : ℚ
  L2_basis_vectors : ℚ
  L2_basis_weights : ℚ
  starting_rvs : List ℚ
  template_xs : Option (ℕ → ℚ)

/-- Component.init, lines 191 to 220: every field is a direct copy of a
keyword, and N is the length of starting_rvs. No comparison against the
epoch count of any Data object happens here. -/
def ComponentInit.make (name : String) (r : ℕ) (starting_rvs : List ℚ)
    (kw : CompKwargs) : ComponentInit :=
  { name := name, r := r, K := kw.variable_bases, N := starting_rvs.length,
    rvs_fixed := kw.rvs_fixed, scale_by_airmass := kw.scale_by_airmass,
    learning_rate_rvs := kw.learning_rate_rvs,
    learning_rate_template := kw.learning_rate_template,
    learning_rate_basis := kw.learning_rate_basis,
    L1_template := kw.L1_template, L2_template := kw.L2_template,
    L1_basis_vectors := kw.L1_basis_vectors,
    L2_basis_vectors := kw.L2_basis_vectors,
    L2_basis_weights := kw.L2_basis_weights,
    starting_rvs := starting_rvs, template_xs := kw.template_xs }

/-- External Results aggregator, reduced to the part add_component
touches: its list of component names, appended to by its own
add_component method. -/
structure ResultsRec where
  component_names : List String

/-- Bookkeeping state of a Model around add_component: the Data epoch
count, the component list, the name list, and the Results aggregator. -/
structure ModelRec where
  dataN : ℕ
  r : ℕ
  components : List ComponentInit
  component_names : List String
  results : ResultsRec

/-- Model.add_component, lines 45 to 54: if the name is already present
the call prints a message and returns with no state change; otherwise
the new component is appended to the component and name lists and, when
the Results aggregator does not know the name yet, registered there. -/
def ModelRec.add_component (m : ModelRec) (name : String)
    (starting_rvs : List ℚ) (kw : CompKwargs) : ModelRec :=
  if name ∈ m.component_names then m
  else
    let c := ComponentInit.make name m.r starting_rvs kw
    { m with
      components := m.components ++ [c],
      component_names := m.component_names ++ [name],
      results :=
        if name ∈ m.results.component_names then m.results
        else { component_names := m.results.component_names ++ [c.name] } }

/-- C7: adding a component under a name the model already has is a
no-op: the entire Model record, including the components list, the name
list and the Results aggregator, is returned unchanged, and the
operation is total. -/
theorem add_component_duplicate_noop (m : ModelRec) (name : String)
    (starting_rvs : List ℚ) (kw : CompKwargs)
    (hdup : name ∈ m.component_names) :
    m.add_component name starting_rvs kw = m := by
  simp [ModelRec.add_component, hdup]

/-- Name constant used by the concrete witnesses below. -/
def starName : String := "star"

/-- Concrete two-epoch model that already has a component named star. -/
def dupModel : ModelRec :=
  { dataN := 2, r := 0,
    components := [ComponentInit.make starName 0 [0, 0] {}],
    component_names := [starName],
    results := { component_names := [starName] } }

/-- Witness for C7: on a concrete model already containing the name
star, add_component with that name returns the model unchanged. -/
theorem add_component_duplicate_noop_witness :
    starName ∈ dupModel.component_names ∧
      dupModel.add_component starName [1, 2, 3] {} = dupModel :=
  ⟨by simp [dupModel], add_component_duplicate_noop dupModel starName [1, 2, 3] {}
      (by simp [dupModel])⟩

/-- Concrete model whose Data has two epochs and no components yet. -/
def freshModel : ModelRec :=
  { dataN := 2, r := 0, components := [], component_names := [],
    results := { component_names := [] } }

/-- C4 (code behaviour at the failing input): on a Model whose Data has
2 epochs, add_component with a starting_rvs of length 3 succeeds and
appends the component, recording N equal to 3; no epoch-count check
exists in add_component or Component.init, so nothing fails at add
time, contradicting the fail-fast requirement. -/
theorem add_component_accepts_mismatched_rvs :
    ((freshModel.add_component starName [0, 0, 0] {}).components.map
        (fun c => c.N) = [3])
      ∧ freshModel.dataN = 2 := by
  constructor
  · rfl
  · rfl

/-!
Optimization-loop embedding for Model.setup lines 98 to 119 and
Model.optimize lines 121 to 158. Each per-block Adam optimizer is an op
that reads the full current state and overwrites exactly its own
parameter block of its own component; the concrete numeric update rule
is an arbitrary function parameter. Model.setup registers, per
component and in insertion order: the template op, the rvs op unless
rvs_fixed, and the two basis ops when K is positive. One outer
iteration runs the registered ops in list order.
-/

/-- Mutable per-component variable blocks plus the ivars_rvs written by
estimate_uncertainties. -/
structure BlockState where
  rvs : ℕ → ℚ
  template_ys : ℕ → ℚ
  basis_vectors : ℕ → ℕ → ℚ
  basis_weights : ℕ → ℕ → ℚ
  ivars_rvs : ℕ → ℚ

/-- Full parameter state, indexed by component position. -/
abbrev ModelState : Type := ℕ → BlockState

/-- Default component record used to read past the end of lists; its
rvs are marked fixed so out-of-range components trivially have no rvs
op, matching the fact that no op is ever created for them. -/
def cInitDflt : ComponentInit :=
  { name := "", r := 0, K := 0, N := 0, rvs_fixed := true,
    scale_by_airmass := false, learning_rate_rvs := 10,
    learning_rate_template := 1 / 100, learning_rate_basis := 1 / 100,
    L1_template := 0, L2_template := 0, L1_basis_vectors := 0,
    L2_basis_vectors := 0, L2_basis_weights := 1, starting_rvs := [],
    template_xs := none }

/-- Abstract Adam update rules, one per parameter block kind: given the
component position and the full current state, produce the new value of
that block. -/
structure AdamUpdates where
  tplUpd : ℕ → ModelState → ℕ → ℚ
  rvsUpd : ℕ → ModelState → ℕ → ℚ
  bvUpd : ℕ → ModelState → ℕ → ℕ → ℚ
  bwUpd : ℕ → ModelState → ℕ → ℕ → ℚ

/-- Overwrite the block record of the component at position i. -/
def updAt (i : ℕ) (f : BlockState → BlockState) (st : ModelState) : ModelState :=
  fun j => if j = i then f (st j) else st j

/-- The ops list built in Model.setup, lines 98 to 115: per component,
the template op always, the rvs op exactly when rvs are not fixed, and
the basis vector and basis weight ops exactly when K is positive,
appended in that order. -/
def setupUpdates (u : AdamUpdates) (comps : List ComponentInit) :
    List (ModelState → ModelState) :=
  (List.range comps.length).flatMap (fun i =>
    [fun st => updAt i (fun b => { b with template_ys := u.tplUpd i st }) st]
    ++ (if (comps.getD i cInitDflt).rvs_fixed then [] else
        [fun st => updAt i (fun b => { b with rvs := u.rvsUpd i st }) st])
    ++ (if 0 < (comps.getD i cInitDflt).K then
        [fun st => updAt i (fun b => { b with basis_vectors := u.bvUpd i st }) st,
         fun st => updAt i (fun b => { b with basis_weights := u.bwUpd i st }) st]
      else []))

/-- One outer optimization iteration: run every registered op once, in
list order (session.run on the updates list, line 149). -/
def iterStep (u : AdamUpdates) (comps : List ComponentInit) (st : ModelState) :
    ModelState :=
  (setupUpdates u comps).foldl (fun s f => f s) st

/-- State right after Model.setup: rvs variables are initialized from
starting_rvs (line 224 and the global initializer on line 119); the
initial template and basis values come from initialize_template and are
passed in as parameters. -/
def initialState (comps : List ComponentInit) (tpl0 : ℕ → ℕ → ℚ)
    (bv0 bw0 : ℕ → ℕ → ℕ → ℚ) : ModelState :=
  fun i =>
    { rvs := fun n => (comps.getD i cInitDflt).starting_rvs.getD n 0,
      template_ys := tpl0 i, basis_vectors := bv0 i, basis_weights := bw0 i,
      ivars_rvs := fun _ => 0 }

/-- The velocity grid helper: value number k of numpy linspace from a
to b with num points. -/
def linspace (a b : ℚ) (num : ℕ) (k : ℕ) : ℚ :=
  a + k * ((b - a) / ((num : ℚ) - 1))

/-- Per-epoch inverse variance computed in Model.estimate_uncertainties,
lines 173 to 183: rows of the grid copy the fitted rvs and add
linspace(-50, 50, 20) to column n only; y collects the n-th entry of
the objective gradient with respect to this component's rvs at each
row; A is column n of the grid minus the fitted value; the result is
the dot product of A and y over the dot product of A with itself. The
gradient function g is the external autodiff of the total objective. -/
def epochIvar (g : (ℕ → ℚ) → ℕ → ℚ) (best : ℕ → ℚ) (n : ℕ) : ℚ :=
  let row : ℕ → ℕ → ℚ := fun k j => if j = n then best j + linspace (-50) 50 20 k else best j
  let y : ℕ → ℚ := fun k => g (row k) n
  let A : ℕ → ℚ := fun k => row k n - best n
  let ATA := ∑ k in Finset.range 20, A k * A k
  let ATy := ∑ k in Finset.range 20, A k * y k
  ATy / ATA

/-- Model.estimate_uncertainties, lines 160 to 184: every component
gets a zero-filled ivars_rvs; the per-epoch estimate overwrites the
entries of epochs below the Data epoch count only for components whose
rvs are not fixed. `g i` is the gradient of the total objective with
respect to component i's rvs. -/
def estimate_uncertainties (g : ℕ → (ℕ → ℚ) → ℕ → ℚ) (dataN : ℕ)
    (comps : List ComponentInit) (st : ModelState) : ModelState :=
  fun i =>
    let c := comps.getD i cInitDflt
    let b := st i
    { b with ivars_rvs := fun n =>
        if c.rvs_fixed then 0
        else if n < dataN then epochIvar (g i) b.rvs n else 0 }

/-- Model.optimize, lines 121 to 158: run niter outer iterations from
the given state, then run estimate_uncertainties. -/
def Model.optimize (u : AdamUpdates) (g : ℕ → (ℕ → ℚ) → ℕ → ℚ) (dataN : ℕ)
    (comps : List ComponentInit) (st : ModelState) (niter : ℕ) : ModelState :=
  estimate_uncertainties g dataN comps ((iterStep u comps)^[niter] st)

section OptimizeLemmas

lemma updAt_rvs_of_keep (i : ℕ) (f : BlockState → BlockState) (st : ModelState)
    (hf : ∀ b, (f b).rvs = b.rvs) : (updAt i f st i).rvs = (st i).rvs := by
  simp [updAt, hf]

lemma setupUpdates_preserve_rvs (u : AdamUpdates) (comps : List ComponentInit)
    (i : ℕ) (hfix : (comps.getD i cInitDflt).rvs_fixed = true) :
    ∀ f ∈ setupUpdates u comps, ∀ st : ModelState, (f st i).rvs = (st i).rvs := by
  intro f hf st
  rcases List.mem_flatMap.mp hf with ⟨j, _, hfj⟩
  by_cases hji : j = i
  · subst hji
    rw [if_pos hfix] at hfj
    by_cases hk : 0 < (comps.getD j cInitDflt).K
    · rw [if_pos hk] at hfj
      simp only [List.append_nil, List.nil_append, List.mem_append,
        List.mem_singleton, List.mem_cons, List.not_mem_nil, or_false,
        false_or] at hfj
      rcases hfj with rfl | rfl | rfl <;>
        exact updAt_rvs_of_keep _ _ _ (fun b => rfl)
    · rw [if_neg hk] at hfj
      simp only [List.append_nil, List.nil_append, List.mem_singleton] at hfj
      rcases hfj with rfl
      exact updAt_rvs_of_keep _ _ _ (fun b => rfl)
  · have hne : i ≠ j := fun h => hji h.symm
    have hupd : ∀ (h : BlockState → BlockState) (s : ModelState),
        (updAt j h s i).rvs = (s i).rvs := by
      intro h s
      have h0 : updAt j h s i = s i := by simp [updAt, hne]
      exact congrArg BlockState.rvs h0
    by_cases hfx : (comps.getD j cInitDflt).rvs_fixed = true
    · rw [if_pos hfx] at hfj
      by_cases hk : 0 < (comps.getD j cInitDflt).K
      · rw [if_pos hk] at hfj
        simp only [List.append_nil, List.nil_append, List.mem_append,
          List.mem_singleton, List.mem_cons, List.not_mem_nil, or_false,
          false_or] at hfj
        rcases hfj with rfl | rfl | rfl <;> exact hupd _ st
      · rw [if_neg hk] at hfj
        simp only [List.append_nil, List.nil_append, List.mem_singleton] at hfj
        rcases hfj with rfl
        exact hupd _ st
    · rw [if_neg hfx] at hfj
      by_cases hk : 0 < (comps.getD j cInitDflt).K
      · rw [if_pos hk] at hfj
        simp only [List.append_nil, List.nil_append, List.mem_append,
          List.mem_singleton, List.mem_cons, List.not_mem_nil, or_false,
          false_or] at hfj
        rcases hfj with (rfl | rfl) | rfl | rfl <;> exact hupd _ st
      · rw [if_neg hk] at hfj
        simp only [List.append_nil, List.nil_append, List.mem_append,
          List.mem_singleton, List.mem_cons, List.not_mem_nil, or_false,
          false_or] at hfj
        rcases hfj with rfl | rfl <;> exact hupd _ st

lemma foldl_preserve_rvs (i : ℕ) (l : List (ModelState → ModelState))
    (hl : ∀ f ∈ l, ∀ st : ModelState, (f st i).rvs = (st i).rvs) :
    ∀ st : ModelState, ((l.foldl (fun s f => f s) st) i).rvs = (st i).rvs := by
  induction l with
  | nil => intro st; rfl
  | cons f fs ih =>
    intro st
    have h1 := hl f (List.mem_cons_self f fs) st
    have h2 := ih (fun g hg st2 => hl g (List.mem_cons_of_mem f hg) st2) (f st)
    simp only [List.foldl_cons]
    rw [h2, h1]

lemma iterStep_preserve_rvs (u : AdamUpdates) (comps : List ComponentInit)
    (i : ℕ) (hfix : (comps.getD i cInitDflt).rvs_fixed = true) (niter : ℕ)
    (st : ModelState) :
    (((iterStep u comps)^[niter] st) i).rvs = (st i).rvs := by
  induction niter generalizing st with
  | zero => rfl
  | succ k ih =>
    rw [Function.iterate_succ_apply]
    rw [ih (iterStep u comps st)]
    exact foldl_preserve_rvs i _ (setupUpdates_preserve_rvs u comps i hfix) st

end OptimizeLemmas

/-- C5: a component whose rvs are fixed keeps, after Model.optimize with
any iteration count and any behaviour of the per-block Adam updates and
of the objective gradient, rvs equal to its starting_rvs, and its rv
inverse variances are all exactly zero. -/
theorem rvs_fixed_invariant (u : AdamUpdates) (g : ℕ → (ℕ → ℚ) → ℕ → ℚ)
    (dataN : ℕ) (comps : List ComponentInit) (tpl0 : ℕ → ℕ → ℚ)
    (bv0 bw0 : ℕ → ℕ → ℕ → ℚ) (i niter : ℕ)
    (hfix : (comps.getD i cInitDflt).rvs_fixed = true) :
    ∀ n,
      ((Model.optimize u g dataN comps (initialState comps tpl0 bv0 bw0) niter) i).rvs n
        = (comps.getD i cInitDflt).starting_rvs.getD n 0
      ∧ ((Model.optimize u g dataN comps (initialState comps tpl0 bv0 bw0) niter) i).ivars_rvs n
        = 0 := by
  intro n
  constructor
  · show ((estimate_uncertainties g dataN comps _) i).rvs n = _
    have h1 : ((estimate_uncertainties g dataN comps
        ((iterStep u comps)^[niter] (initialState comps tpl0 bv0 bw0))) i).rvs
        = (((iterStep u comps)^[niter] (initialState comps tpl0 bv0 bw0)) i).rvs := rfl
    rw [h1, iterStep_preserve_rvs u comps i hfix niter]
    rfl
  · show (if (comps.getD i cInitDflt).rvs_fixed = true then (0 : ℚ)
        else if n < dataN then
          epochIvar (g i)
            (((iterStep u comps)^[niter] (initialState comps tpl0 bv0 bw0)) i).rvs n
        else 0) = 0
    rw [if_pos hfix]

/-- Concrete fixed-rvs component used by the witness. -/
def fixedComp : ComponentInit :=
  ComponentInit.make starName 0 [5, 7] { rvs_fixed := true }

/-- Witness for C5: a concrete one-component model with fixed rvs
starting at 5 and 7, arbitrary concrete update rules returning 9, a
concrete gradient returning 3, and two iterations: epoch 0 still has rv
5 and zero inverse variance. -/
theorem rvs_fixed_invariant_witness :
    ([fixedComp].getD 0 cInitDflt).rvs_fixed = true
      ∧ ((Model.optimize
            { tplUpd := fun _ _ _ => 9, rvsUpd := fun _ _ _ => 9,
              bvUpd := fun _ _ _ _ => 9, bwUpd := fun _ _ _ _ => 9 }
            (fun _ _ _ => 3) 2 [fixedComp]
            (initialState [fixedComp] (fun _ _ => 1) (fun _ _ _ => 0)
              (fun _ _ _ => 0)) 2) 0).rvs 0 = 5
      ∧ ((Model.optimize
            { tplUpd := fun _ _ _ => 9, rvsUpd := fun _ _ _ => 9,
              bvUpd := fun _ _ _ _ => 9, bwUpd := fun _ _ _ _ => 9 }
            (fun _ _ _ => 3) 2 [fixedComp]
            (initialState [fixedComp] (fun _ _ => 1) (fun _ _ _ => 0)
              (fun _ _ _ => 0)) 2) 0).ivars_rvs 0 = 0 :=
  ⟨rfl,
    (rvs_fixed_invariant
      { tplUpd := fun _ _ _ => 9, rvsUpd := fun _ _ _ => 9,
        bvUpd := fun _ _ _ _ => 9, bwUpd := fun _ _ _ _ => 9 }
      (fun _ _ _ => 3) 2 [fixedComp] (fun _ _ => 1) (fun _ _ _ => 0)
      (fun _ _ _ => 0) 0 2 rfl 0).1,
    (rvs_fixed_invariant
      { tplUpd := fun _ _ _ => 9, rvsUpd := fun _ _ _ => 9,
        bvUpd := fun _ _ _ _ => 9, bwUpd := fun _ _ _ _ => 9 }
      (fun _ _ _ => 3) 2 [fixedComp] (fun _ _ => 1) (fun _ _ _ => 0)
      (fun _ _ _ => 0) 0 2 rfl 0).2⟩

/-- C8: Model.optimize with zero iterations changes no parameter block
of any component: rvs, template values, basis vectors and basis weights
are all returned exactly as they were; only the ivars_rvs field is
rewritten by the uncertainty estimation that still runs. -/
theorem optimize_zero_preserves_params (u : AdamUpdates)
    (g : ℕ → (ℕ → ℚ) → ℕ → ℚ) (dataN : ℕ) (comps : List ComponentInit)
    (st : ModelState) (i : ℕ) :
    ((Model.optimize u g dataN comps st 0) i).rvs = (st i).rvs
      ∧ ((Model.optimize u g dataN comps st 0) i).template_ys = (st i).template_ys
      ∧ ((Model.optimize u g dataN comps st 0) i).basis_vectors = (st i).basis_vectors
      ∧ ((Model.optimize u g dataN comps st 0) i).basis_weights = (st i).basis_weights :=
  ⟨rfl, rfl, rfl, rfl⟩

/-!
Uncertainty estimation as an ordinary least squares slope, for the
comparison demanded by the specification of estimate_uncertainties.
-/

/-- Specification-side reading of the per-epoch estimate: perturb epoch
n of the fitted rvs by each linspace value, take the gradient entry of
that epoch, and form ATy over ATA of the no-intercept regression of
gradient against perturbation. -/
def epochIvarOLS (g : (ℕ → ℚ) → ℕ → ℚ) (best : ℕ → ℚ) (n : ℕ) : ℚ :=
  let p : ℕ → ℚ := fun k => linspace (-50) 50 20 k
  (∑ k in Finset.range 20, p k * g (Function.update best n (best n + p k)) n)
    / ∑ k in Finset.range 20, p k * p k

lemma epochIvar_eq_ols (g : (ℕ → ℚ) → ℕ → ℚ) (best : ℕ → ℚ) (n : ℕ) :
    epochIvar g best n = epochIvarOLS g best n := by
  have hrow : ∀ k : ℕ,
      (fun j => if j = n then best j + linspace (-50) 50 20 k else best j)
        = Function.update best n (best n + linspace (-50) 50 20 k) := by
    intro k
    funext j
    rw [Function.update_apply]
    by_cases hj : j = n
    · rw [if_pos hj, if_pos hj, hj]
    · rw [if_neg hj, if_neg hj]
  have hnum : ∀ k ∈ Finset.range 20,
      linspace (-50) 50 20 k
          * g (fun j => if j = n then best j + linspace (-50) 50 20 k else best j) n
        = linspace (-50) 50 20 k
          * g (Function.update best n (best n + linspace (-50) 50 20 k)) n := by
    intro k _
    rw [hrow k]
  unfold epochIvar epochIvarOLS
  simp only [eq_self_iff_true, if_true, ite_true, add_sub_cancel_left]
  rw [Finset.sum_congr rfl hnum]

lemma linspace_endpoints :
    linspace (-50) 50 20 0 = -50 ∧ linspace (-50) 50 20 19 = 50 := by
  constructor <;> norm_num [linspace]

lemma linspace_symm (k : ℕ) (hk : k ≤ 19) :
    linspace (-50) 50 20 (19 - k) = -(linspace (-50) 50 20 k) := by
  have hc : ((19 - k : ℕ) : ℚ) = 19 - (k : ℚ) := by
    push_cast [Nat.cast_sub hk]
    ring
  rw [linspace, linspace, hc]
  norm_num
  ring

lemma linspace_bounded (k : ℕ) (hk : k < 20) : |linspace (-50) 50 20 k| ≤ 50 := by
  have hk19 : (k : ℚ) ≤ 19 := by
    have : k ≤ 19 := Nat.lt_succ_iff.mp hk
    exact_mod_cast this
  have hk0 : (0 : ℚ) ≤ (k : ℚ) := Nat.cast_nonneg k
  have h20 : ((20 : ℕ) : ℚ) = 20 := by norm_num
  rw [abs_le, linspace, h20]
  constructor
  · nlinarith
  · nlinarith

/-- C3: after Model.optimize, for a component with free rvs and an epoch
below the Data epoch count, the stored inverse variance of that epoch's
rv equals the no-intercept ordinary least squares slope ATy over ATA of
the objective gradient against the perturbation, where the
perturbations are the 20 linspace values around the fitted rv (all
other epochs held at their fitted values); the perturbation grid is
symmetric, spans -50 at its first and 50 at its last entry, and stays
within the 50-unit window. -/
theorem estimate_uncertainties_ols (u : AdamUpdates)
    (g : ℕ → (ℕ → ℚ) → ℕ → ℚ) (dataN : ℕ) (comps : List ComponentInit)
    (st : ModelState) (i niter n : ℕ)
    (hfree : (comps.getD i cInitDflt).rvs_fixed = false) (hn : n < dataN) :
    ((Model.optimize u g dataN comps st niter) i).ivars_rvs n
        = epochIvarOLS (g i) (((iterStep u comps)^[niter] st) i).rvs n
      ∧ linspace (-50) 50 20 0 = -50
      ∧ linspace (-50) 50 20 19 = 50
      ∧ (∀ k, k < 20 → |linspace (-50) 50 20 k| ≤ 50)
      ∧ (∀ k, k ≤ 19 → linspace (-50) 50 20 (19 - k) = -(linspace (-50) 50 20 k)) := by
  refine ⟨?h1, linspace_endpoints.1, linspace_endpoints.2, linspace_bounded,
    linspace_symm⟩
  show (if (comps.getD i cInitDflt).rvs_fixed = true then (0 : ℚ)
      else if n < dataN then
        epochIvar (g i) (((iterStep u comps)^[niter] st) i).rvs n
      else 0) = _
  rw [if_neg (by rw [hfree]; exact Bool.false_ne_true), if_pos hn,
    epochIvar_eq_ols]

/-- Concrete free-rvs component used by the witness for the uncertainty
estimate. -/
def freeComp : ComponentInit := ComponentInit.make starName 0 [0, 0] {}

/-- Witness for C3: one free component, one iteration, gradient equal to
the rv of the queried epoch, concrete state: the stored inverse
variance of epoch 0 equals the OLS slope expression at the fitted
rvs. -/
theorem estimate_uncertainties_ols_witness :
    ([freeComp].getD 0 cInitDflt).rvs_fixed = false ∧ 0 < 2
      ∧ ((Model.optimize
            { tplUpd := fun _ _ _ => 0, rvsUpd := fun _ _ _ => 4,
              bvUpd := fun _ _ _ _ => 0, bwUpd := fun _ _ _ _ => 0 }
            (fun _ v j => v j) 2 [freeComp]
            (initialState [freeComp] (fun _ _ => 0) (fun _ _ _ => 0)
              (fun _ _ _ => 0)) 1) 0).ivars_rvs 0
        = epochIvarOLS ((fun _ v (j : ℕ) => v j) 0)
            (((iterStep
              { tplUpd := fun _ _ _ => 0, rvsUpd := fun _ _ _ => 4,
                bvUpd := fun _ _ _ _ => 0, bwUpd := fun _ _ _ _ => 0 }
              [freeComp])^[1]
              (initialState [freeComp] (fun _ _ => 0) (fun _ _ _ => 0)
                (fun _ _ _ => 0))) 0).rvs 0 :=
  ⟨rfl, by decide,
    (estimate_uncertainties_ols
      { tplUpd := fun _ _ _ => 0, rvsUpd := fun _ _ _ => 4,
        bvUpd := fun _ _ _ _ => 0, bwUpd := fun _ _ _ _ => 0 }
      (fun _ v j => v j) 2 [freeComp]
      (initialState [freeComp] (fun _ _ => 0) (fun _ _ _ => 0)
        (fun _ _ _ => 0)) 0 1 0 rfl (by decide)).1⟩

/-!
Template initialization, Component.initialize_template lines 260 to 289
and Model.initialize_templates lines 71 to 82. The external binner
(bin_data), the automatic grid construction (its numeric content is
settled separately over the reals below), the SVD and numpy interp are
function parameters collected in InitPrims. Numpy value semantics of
the pure chain is justified by the store-level embedding further down,
which models array identity and the copies explicitly.
-/

/-- External primitives consumed by initialize_template: log-doppler,
numpy interp, bin_data returning grid, values and grid length, the
automatic grid construction of lines 266 to 269, and the SVD returning
u, the singular values and v for a matrix of the given shape. -/
structure InitPrims where
  ld : ℚ → ℚ
  npInterp : Interp1
  binData : Arr → Arr → Arr → (ℕ → ℚ) → ((ℕ → ℚ) × (ℕ → ℚ) × ℕ)
  autoGrid : Arr → (ℕ → ℚ)
  svdFun : Arr → ℕ → ℕ → (Arr × (ℕ → ℚ) × Arr)

/-- Output of Component.initialize_template: the binned template grid
and values with the grid length, the basis arrays, and the residual
array returned to the caller. -/
structure InitOut where
  template_xs : ℕ → ℚ
  template_ys : ℕ → ℚ
  Mt : ℕ
  basis_vectors : Arr
  basis_weights : Arr
  resid : Arr

/-- Component.initialize_template, lines 260 to 289: shift the data
coordinates into the component rest frame with the starting rvs, build
the grid if none was supplied, bin the data onto it, for positive K
take the SVD of the per-epoch residuals interpolated onto the template
grid and keep the top K pairs, then subtract the per-epoch full
template, interpolated at each epoch's shifted coordinates, from a copy
of the data. M is the per-epoch pixel count of the data arrays. -/
def ComponentInit.initialize_template (P : InitPrims) (M : ℕ)
    (c : ComponentInit) (dataxs datays dataivars : Arr) : InitOut :=
  let shifted : Arr := fun n m => dataxs n m + P.ld (c.starting_rvs.getD n 0)
  let txs0 : ℕ → ℚ :=
    match c.template_xs with
    | some t => t
    | none => P.autoGrid shifted
  let b := P.binData shifted datays dataivars txs0
  let txs := b.1
  let tys := b.2.1
  let mt := b.2.2
  let resids : Arr := fun n j => P.npInterp (shifted n) (datays n) M (txs j) - tys j
  let sv := P.svdFun resids c.N mt
  let bv : Arr := sv.2.2
  let bw : Arr := fun n k => sv.1 n k * sv.2.1 k
  let fullT : Arr := fun n j =>
    tys j + (if 0 < c.K then ∑ k in Finset.range c.K, bw n k * bv k j else 0)
  { template_xs := txs, template_ys := tys, Mt := mt,
    basis_vectors := bv, basis_weights := bw,
    resid := fun n m => datays n m - P.npInterp txs (fullT n) mt (shifted n m) }

/-- Model.initialize_templates, lines 71 to 82: starting from a copy of
the data flux, fold over the components in insertion order, handing
each one the residual of the previous. -/
def Model.initialize_templates (P : InitPrims) (M : ℕ)
    (comps : List ComponentInit) (dataxs datays0 dataivars : Arr) : Arr :=
  comps.foldl
    (fun dys c => (c.initialize_template P M dataxs dys dataivars).resid)
    datays0

/-- The residual chain: the data handed to the component at position i
during initialization. Position 0 receives the data flux itself. -/
def handedData (P : InitPrims) (M : ℕ) (comps : List ComponentInit)
    (dataxs datays0 dataivars : Arr) : ℕ → Arr
  | 0 => datays0
  | i + 1 =>
    ((comps.getD i cInitDflt).initialize_template P M dataxs
      (handedData P M comps dataxs datays0 dataivars i) dataivars).resid

/-- Template-initialization output of the component at position i, run
on the data handed to it by the chain. -/
def chainOut (P : InitPrims) (M : ℕ) (comps : List ComponentInit)
    (dataxs datays0 dataivars : Arr) (i : ℕ) : InitOut :=
  (comps.getD i cInitDflt).initialize_template P M dataxs
    (handedData P M comps dataxs datays0 dataivars i) dataivars

lemma handedData_cons (P : InitPrims) (M : ℕ) (c : ComponentInit)
    (cs : List ComponentInit) (dataxs datays0 dataivars : Arr) (i : ℕ) :
    handedData P M (c :: cs) dataxs datays0 dataivars (i + 1)
      = handedData P M cs dataxs
          ((c.initialize_template P M dataxs datays0 dataivars).resid) dataivars i := by
  induction i with
  | zero => rfl
  | succ j ih =>
    show (((c :: cs).getD (j + 1) cInitDflt).initialize_template P M dataxs
        (handedData P M (c :: cs) dataxs datays0 dataivars (j + 1)) dataivars).resid = _
    rw [ih]
    rfl

lemma initialize_templates_eq_handed (P : InitPrims) (M : ℕ)
    (comps : List ComponentInit) (dataxs dataivars : Arr) :
    ∀ datays0 : Arr,
      Model.initialize_templates P M comps dataxs datays0 dataivars
        = handedData P M comps dataxs datays0 dataivars comps.length := by
  induction comps with
  | nil => intro d0; rfl
  | cons c cs ih =>
    intro d0
    show Model.initialize_templates P M cs dataxs
        ((c.initialize_template P M dataxs d0 dataivars).resid) dataivars = _
    rw [ih, List.length_cons, handedData_cons]

/-- C6: components are initialized strictly in insertion order: the
value Model.initialize_templates returns is the end of the sequential
residual chain, and the data handed to position i plus 1 equals the
data handed to position i minus that component's full template (binned
base values plus the basis correction when K is positive) interpolated,
per epoch, at the epoch's original coordinates shifted into the
component's rest frame by its starting rvs. -/
theorem initialize_templates_residual_chain (P : InitPrims) (M : ℕ)
    (comps : List ComponentInit) (dataxs datays0 dataivars : Arr) :
    (∀ i n m,
      handedData P M comps dataxs datays0 dataivars (i + 1) n m
        = handedData P M comps dataxs datays0 dataivars i n m
          - P.npInterp (chainOut P M comps dataxs datays0 dataivars i).template_xs
              (fun j => (chainOut P M comps dataxs datays0 dataivars i).template_ys j
                + (if 0 < (comps.getD i cInitDflt).K then
                    ∑ k in Finset.range (comps.getD i cInitDflt).K,
                      (chainOut P M comps dataxs datays0 dataivars i).basis_weights n k
                        * (chainOut P M comps dataxs datays0 dataivars i).basis_vectors k j
                  else 0))
              (chainOut P M comps dataxs datays0 dataivars i).Mt
              (dataxs n m + P.ld ((comps.getD i cInitDflt).starting_rvs.getD n 0)))
      ∧ Model.initialize_templates P M comps dataxs datays0 dataivars
          = handedData P M comps dataxs datays0 dataivars comps.length := by
  refine ⟨fun i n m => rfl, initialize_templates_eq_handed P M comps dataxs dataivars datays0⟩

/-!
Store-level embedding of the same two functions, making numpy array
identity and in-place mutation explicit. A store maps array references
to contents; numpy copy allocates a fresh reference, and the in-place
row subtraction of line 288 writes through the reference it was given.
Model.initialize_templates receives the references of the Data
provider's arrays: the wavelength and inverse variance arrays are
passed along as aliases and only read, while the flux array is copied
on line 79 before the loop, and each initialize_template call copies
its input again on line 286 and writes only to that fresh copy.
-/

/-- Heap of numpy arrays: contents per reference, plus the next fresh
reference. -/
structure Store where
  mem : ℕ → Arr
  next : ℕ

/-- Read the array behind a reference. -/
def Store.read (s : Store) (r : ℕ) : Arr := s.mem r

/-- Overwrite the array behind a reference in place. -/
def Store.write (s : Store) (r : ℕ) (v : Arr) : Store :=
  { s with mem := fun j => if j = r then v else s.mem j }

/-- Allocate a fresh array (numpy copy of the given contents). -/
def Store.alloc (s : Store) (v : Arr) : Store × ℕ :=
  ({ mem := fun j => if j = s.next then v else s.mem j, next := s.next + 1 }, s.next)

/-- Component.initialize_template on the store: reads the three data
arrays through their references, performs the pure template
computation, copies the flux array (line 286) and subtracts the
interpolated full template in place on the copy (lines 287 to 288),
returning the new store and the reference of the residual array. -/
def initTemplateStore (P : InitPrims) (M : ℕ) (c : ComponentInit)
    (s : Store) (rxs rys rivars : ℕ) : Store × ℕ :=
  let dataxs := s.read rxs
  let datays := s.read rys
  let dataivars := s.read rivars
  let shifted : Arr := fun n m => dataxs n m + P.ld (c.starting_rvs.getD n 0)
  let txs0 : ℕ → ℚ :=
    match c.template_xs with
    | some t => t
    | none => P.autoGrid shifted
  let b := P.binData shifted datays dataivars txs0
  let txs := b.1
  let tys := b.2.1
  let mt := b.2.2
  let resids : Arr := fun n j => P.npInterp (shifted n) (datays n) M (txs j) - tys j
  let sv := P.svdFun resids c.N mt
  let bv : Arr := sv.2.2
  let bw : Arr := fun n k => sv.1 n k * sv.2.1 k
  let fullT : Arr := fun n j =>
    tys j + (if 0 < c.K then ∑ k in Finset.range c.K, bw n k * bv k j else 0)
  let a := s.alloc datays
  let s1 := a.1
  let rres := a.2
  let s2 := s1.write rres
    (fun n m => (s1.read rres) n m - P.npInterp txs (fullT n) mt (shifted n m))
  (s2, rres)

/-- Model.initialize_templates on the store: copy the flux array (line
79), then fold the components in order, threading the reference of the
current residual array while the wavelength and inverse variance
references are passed unchanged. -/
def initTemplatesStore (P : InitPrims) (M : ℕ) (comps : List ComponentInit)
    (s : Store) (rxs rys rivars : ℕ) : Store :=
  let a := s.alloc (s.read rys)
  (comps.foldl (fun acc c => initTemplateStore P M c acc.1 rxs acc.2 rivars)
    (a.1, a.2)).1

lemma read_write_ne (s : Store) (r t : ℕ) (v : Arr) (h : r ≠ t) :
    (s.write t v).read r = s.read r := by
  simp [Store.write, Store.read, h]

lemma read_alloc_lt (s : Store) (v : Arr) (r : ℕ) (h : r < s.next) :
    (s.alloc v).1.read r = s.read r := by
  simp [Store.alloc, Store.read, Nat.ne_of_lt h]

lemma initTemplateStore_frame (P : InitPrims) (M : ℕ) (c : ComponentInit)
    (s : Store) (rxs rys rivars : ℕ) :
    s.next ≤ (initTemplateStore P M c s rxs rys rivars).1.next
      ∧ ∀ r, r < s.next →
          (initTemplateStore P M c s rxs rys rivars).1.read r = s.read r := by
  constructor
  · show s.next ≤ s.next + 1
    exact Nat.le_succ s.next
  · intro r hr
    show ((s.alloc (s.read rys)).1.write s.next _).read r = s.read r
    rw [read_write_ne _ _ _ _ (Nat.ne_of_lt hr)]
    exact read_alloc_lt s _ r hr

lemma initTemplatesStore_fold_frame (P : InitPrims) (M : ℕ)
    (comps : List ComponentInit) (rxs rivars : ℕ) (b : ℕ) :
    ∀ (s1 : Store) (rcur : ℕ), b ≤ s1.next →
      b ≤ (comps.foldl (fun acc c => initTemplateStore P M c acc.1 rxs acc.2 rivars)
            (s1, rcur)).1.next
      ∧ ∀ r, r < b →
          (comps.foldl (fun acc c => initTemplateStore P M c acc.1 rxs acc.2 rivars)
            (s1, rcur)).1.read r = s1.read r := by
  induction comps with
  | nil => intro s1 rcur hb; exact ⟨hb, fun r _ => rfl⟩
  | cons c cs ih =>
    intro s1 rcur hb
    have hstep := initTemplateStore_frame P M c s1 rxs rcur rivars
    have hb2 : b ≤ (initTemplateStore P M c s1 rxs rcur rivars).1.next :=
      le_trans hb hstep.1
    have hrest := ih (initTemplateStore P M c s1 rxs rcur rivars).1
      (initTemplateStore P M c s1 rxs rcur rivars).2 hb2
    refine ⟨hrest.1, fun r hr => ?hr⟩
    rw [List.foldl_cons]
    have h1 : (initTemplateStore P M c s1 rxs rcur rivars).1.read r = s1.read r :=
      hstep.2 r (lt_of_lt_of_le hr hb)
    calc ((cs.foldl (fun acc c => initTemplateStore P M c acc.1 rxs acc.2 rivars)
            (initTemplateStore P M c s1 rxs rcur rivars)).1.read r)
        = (initTemplateStore P M c s1 rxs rcur rivars).1.read r := hrest.2 r hr
      _ = s1.read r := h1

/-- C10: the Data provider's arrays are never mutated: any array that
existed in the store before initTemplatesStore runs (in particular the
wavelength, flux and inverse variance arrays whose references are
passed in) reads back unchanged afterwards, and the same holds for a
single initTemplateStore call. All writes target freshly allocated
copies. -/
theorem data_arrays_never_mutated (P : InitPrims) (M : ℕ)
    (comps : List ComponentInit) (s : Store) (rxs rys rivars r : ℕ)
    (hr : r < s.next) :
    (initTemplatesStore P M comps s rxs rys rivars).read r = s.read r
      ∧ ∀ c : ComponentInit,
          (initTemplateStore P M c s rxs rys rivars).1.read r = s.read r := by
  constructor
  · show ((comps.foldl (fun acc c => initTemplateStore P M c acc.1 rxs acc.2 rivars)
        ((s.alloc (s.read rys)).1, (s.alloc (s.read rys)).2)).1.read r) = s.read r
    have halloc : s.next ≤ (s.alloc (s.read rys)).1.next := Nat.le_succ s.next
    have hfold := initTemplatesStore_fold_frame P M comps rxs rivars s.next
      (s.alloc (s.read rys)).1 (s.alloc (s.read rys)).2 halloc
    rw [hfold.2 r hr]
    exact read_alloc_lt s _ r hr
  · intro c
    exact (initTemplateStore_frame P M c s rxs rys rivars).2 r hr

/-- Concrete primitives for the store witness: every external function
returns fixed simple values. -/
def zeroPrims : InitPrims :=
  { ld := fun _ => 0, npInterp := fun _ _ _ _ => 1,
    binData := fun _ _ _ t => (t, fun _ => 2, 4),
    autoGrid := fun _ => fun _ => 0,
    svdFun := fun _ _ _ => (fun _ _ => 0, fun _ => 0, fun _ _ => 0) }

/-- Concrete three-array store: references 0, 1 and 2 hold the data
arrays, all filled with the constant 5. -/
def dataStore : Store := { mem := fun _ => fun _ _ => 5, next := 3 }

/-- Witness for C10: running the store level initialization of one
default component over the concrete store leaves the flux array at
reference 1 unchanged. -/
theorem data_arrays_never_mutated_witness :
    1 < dataStore.next
      ∧ (initTemplatesStore zeroPrims 4 [cInitDflt] dataStore 0 1 2).read 1
          = dataStore.read 1 :=
  ⟨by decide,
    (data_arrays_never_mutated zeroPrims 4 [cInitDflt] dataStore 0 1 2 1
      (by decide)).1⟩

/-!
Automatic template grid construction of Component.initialize_template,
lines 264 to 269, over the reals: the log-uniform spacing is twice the
difference of the logs of 6000.01 and 6000, and numpy arange runs from
the minimum of the shifted coordinates minus ten spacings up to, but
excluding, their maximum plus ten spacings.
-/

/-- Fixed log-uniform spacing of line 266. -/
noncomputable def wobbleDx : ℝ := 2 * (Real.log 6000.01 - Real.log 6000)

/-- Numpy arange with positive step: the count of elements is the
number of steps that stay strictly below the stop value. -/
noncomputable def arange (a b dx : ℝ) : List ℝ :=
  (List.range ⌈(b - a) / dx⌉₊).map (fun k : ℕ => a + (k : ℝ) * dx)

/-- Minimum entry of the leading N by M block of a real matrix,
modelling numpy min on a nonempty array as a fold. -/
def matMin (N M : ℕ) (f : ℕ → ℕ → ℝ) : ℝ :=
  ((List.range N).flatMap (fun n => (List.range M).map (f n))).foldl min (f 0 0)

/-- Maximum entry of the leading N by M block of a real matrix. -/
def matMax (N M : ℕ) (f : ℕ → ℕ → ℝ) : ℝ :=
  ((List.range N).flatMap (fun n => (List.range M).map (f n))).foldl max (f 0 0)

/-- The automatically constructed template grid of lines 264 to 269,
given the Doppler-shifted coordinate matrix. -/
noncomputable def autoTemplateGrid (N M : ℕ) (shifted : ℕ → ℕ → ℝ) : List ℝ :=
  arange (matMin N M shifted - 10 * wobbleDx) (matMax N M shifted + 10 * wobbleDx)
    wobbleDx

lemma foldl_min_le_init (l : List ℝ) (a : ℝ) : l.foldl min a ≤ a := by
  induction l generalizing a with
  | nil => exact le_refl a
  | cons x xs ih => exact le_trans (ih (min a x)) (min_le_left a x)

lemma init_le_foldl_max (l : List ℝ) (a : ℝ) : a ≤ l.foldl max a := by
  induction l generalizing a with
  | nil => exact le_refl a
  | cons x xs ih => exact le_trans (le_max_left a x) (ih (max a x))

lemma matMin_le_matMax (N M : ℕ) (f : ℕ → ℕ → ℝ) :
    matMin N M f ≤ matMax N M f :=
  le_trans (foldl_min_le_init _ _) (init_le_foldl_max _ _)

lemma wobbleDx_pos : 0 < wobbleDx := by
  have h : Real.log 6000 < Real.log 6000.01 :=
    Real.log_lt_log (by norm_num) (by norm_num)
  have h2 : 0 < Real.log 6000.01 - Real.log 6000 := sub_pos.mpr h
  unfold wobbleDx
  linarith

lemma arange_mem (a b dx : ℝ) (k : ℕ) (hk : k < ⌈(b - a) / dx⌉₊) :
    a + (k : ℝ) * dx ∈ arange a b dx := by
  simp only [arange, List.mem_map, List.mem_range]
  exact ⟨k, hk, rfl⟩

lemma arange_head_mem (a b dx : ℝ) (hdx : 0 < dx) (hab : a < b) :
    a ∈ arange a b dx := by
  have hq : (0 : ℝ) < (b - a) / dx := div_pos (by linarith) hdx
  have h0 := arange_mem a b dx 0 (Nat.ceil_pos.mpr hq)
  simpa using h0

lemma arange_lower (a b dx : ℝ) (hdx : 0 < dx) :
    ∀ x ∈ arange a b dx, a ≤ x := by
  intro x hx
  simp only [arange, List.mem_map, List.mem_range] at hx
  rcases hx with ⟨k, _, rfl⟩
  have h1 : (0 : ℝ) ≤ (k : ℝ) * dx := mul_nonneg (Nat.cast_nonneg k) (le_of_lt hdx)
  linarith

lemma arange_upper (a b dx : ℝ) (hdx : 0 < dx) :
    ∀ x ∈ arange a b dx, x < b := by
  intro x hx
  simp only [arange, List.mem_map, List.mem_range] at hx
  rcases hx with ⟨k, hk, rfl⟩
  have hk2 : (k : ℝ) < (b - a) / dx := Nat.lt_ceil.mp hk
  have hk3 : (k : ℝ) * dx < b - a := (lt_div_iff hdx).mp hk2
  linarith

lemma arange_last (a b dx : ℝ) (hdx : 0 < dx) (hab : a < b) :
    ∃ x ∈ arange a b dx, b - dx ≤ x := by
  have hq : (0 : ℝ) < (b - a) / dx := div_pos (by linarith) hdx
  have hcnt : 0 < ⌈(b - a) / dx⌉₊ := Nat.ceil_pos.mpr hq
  refine ⟨a + ((⌈(b - a) / dx⌉₊ - 1 : ℕ) : ℝ) * dx,
    arange_mem a b dx _ (by omega), ?hge⟩
  have hle : (b - a) / dx ≤ (⌈(b - a) / dx⌉₊ : ℝ) := Nat.le_ceil _
  have hcm : b - a ≤ (⌈(b - a) / dx⌉₊ : ℝ) * dx := (div_le_iff hdx).mp hle
  have h1 : 1 ≤ ⌈(b - a) / dx⌉₊ := hcnt
  have hcast : ((⌈(b - a) / dx⌉₊ - 1 : ℕ) : ℝ) = (⌈(b - a) / dx⌉₊ : ℝ) - 1 := by
    push_cast [Nat.cast_sub h1]
    ring
  rw [hcast, sub_mul, one_mul]
  linarith

/-- C9: the automatically constructed grid is nonempty; its smallest
element is exactly the minimum of the shifted coordinates minus ten
spacings, hence strictly below that minimum; some element lies strictly
above the maximum of the shifted coordinates; and every element stays
strictly below that maximum plus ten spacings, the spacing being the
fixed value twice the difference of the logs of 6000.01 and 6000. -/
theorem auto_template_grid_brackets_data (N M : ℕ) (shifted : ℕ → ℕ → ℝ) :
    autoTemplateGrid N M shifted ≠ []
      ∧ (matMin N M shifted - 10 * wobbleDx) ∈ autoTemplateGrid N M shifted
      ∧ (∀ x ∈ autoTemplateGrid N M shifted, matMin N M shifted - 10 * wobbleDx ≤ x)
      ∧ matMin N M shifted - 10 * wobbleDx < matMin N M shifted
      ∧ (∃ x ∈ autoTemplateGrid N M shifted, matMax N M shifted < x)
      ∧ (∀ x ∈ autoTemplateGrid N M shifted, x < matMax N M shifted + 10 * wobbleDx) := by
  have hdx := wobbleDx_pos
  have hmm := matMin_le_matMax N M shifted
  have hab : matMin N M shifted - 10 * wobbleDx
      < matMax N M shifted + 10 * wobbleDx := by linarith
  unfold autoTemplateGrid
  have hmema := arange_head_mem (matMin N M shifted - 10 * wobbleDx)
    (matMax N M shifted + 10 * wobbleDx) wobbleDx hdx hab
  rcases arange_last (matMin N M shifted - 10 * wobbleDx)
    (matMax N M shifted + 10 * wobbleDx) wobbleDx hdx hab with ⟨x, hxmem, hxge⟩
  refine ⟨List.ne_nil_of_mem hmema, hmema,
    arange_lower (matMin N M shifted - 10 * wobbleDx)
      (matMax N M shifted + 10 * wobbleDx) wobbleDx hdx,
    by linarith, ⟨x, hxmem, by linarith⟩,
    arange_upper (matMin N M shifted - 10 * wobbleDx)
      (matMax N M shifted + 10 * wobbleDx) wobbleDx hdx⟩
